import Mathlib

/-!
# Verification of the Afropair translation pipeline core

Shallow embedding, in Lean 4, of the candidate generation, arbitration and
confidence-scoring pipeline of the Afropair French → Mooré translation data
generation system (JavaScript source: `Splitter`, `DictionaryLookup`,
`CorpusRetriever`, `Referee`, `Scorer`).

Modelling conventions:
* JavaScript numbers (IEEE doubles) are modelled as exact rationals `ℚ`.
  Every constant appearing in the source (`0.1`, `0.5`, `0.6`, `0.7`, `0.8`,
  `1.1`, `0.3`) is an exact decimal, and every arithmetic operation performed
  by the pipeline on the concrete inputs considered here is exact, so the
  rational model agrees with the double model on everything stated below.
* JavaScript strings are modelled as Lean `String`, and `.length` as
  `String.length`; all characters appearing in the data are in the basic
  multilingual plane, where UTF-16 code-unit counts and code-point counts
  agree.
* Regular-expression splitting (`split(/\s+/)`, `split(/[.!?]+/)`,
  `split(/[\s\p{P}]+/u)`) is modelled by `splitRuns` below, with the
  character classes restricted to the characters actually reachable in the
  repository data (ASCII whitespace, ASCII punctuation).  `String.toLowerCase`
  is modelled by ASCII case folding, which agrees with JavaScript on the
  inputs used here.
* JavaScript `Map` and plain-object dictionaries are modelled as insertion
  ordered association lists.  `Array.prototype.sort` (stable by the ECMAScript
  specification) is modelled by `List.insertionSort`, which is stable and
  produces the same list as any stable sort for a total preorder.
-/

/-- Case folding used by the pipeline in place of `String.toLowerCase`
(ASCII-only, which agrees with JavaScript on the letters that occur in the
keys and queries considered here). -/
def jsToLower (s : String) : String :=
  String.mk (s.data.map Char.toLower)

/-- Model of `String.prototype.trim`: drop leading and trailing whitespace. -/
def jsTrim (s : String) : String :=
  String.mk ((s.data.dropWhile Char.isWhitespace).reverse.dropWhile Char.isWhitespace).reverse

/-- One step of `splitRuns`: state is (emitted pieces, current piece reversed,
currently inside a separator run). -/
def splitRunsStep (p : Char → Bool) (st : List String × List Char × Bool) (c : Char) :
    List String × List Char × Bool :=
  if p c then
    if st.2.2 then st else (st.1 ++ [String.mk st.2.1.reverse], [], true)
  else (st.1, c :: st.2.1, false)

/-- Model of JavaScript `String.prototype.split` with a regular expression
matching one or more characters of the class `p` (such as `/\s+/` or
`/[.!?]+/`): the string is cut at every maximal run of class-`p` characters,
and empty pieces at the boundaries are kept, exactly as in JavaScript. -/
def splitRuns (p : Char → Bool) (s : String) : List String :=
  let st := s.data.foldl (splitRunsStep p) ([], [], false)
  st.1 ++ [String.mk st.2.1.reverse]

/-- Model of JavaScript `String.prototype.split` with a single-character
separator (such as `split('\t')` or `split('\n')`): cut at every occurrence,
keeping empty pieces. -/
def splitOnCharGo (sep : Char) : List Char → List Char → List String
  | [], cur => [String.mk cur.reverse]
  | c :: cs, cur =>
    if c = sep then String.mk cur.reverse :: splitOnCharGo sep cs []
    else splitOnCharGo sep cs (c :: cur)

/-- Split a string at every occurrence of the character `sep`. -/
def splitOnChar (sep : Char) (s : String) : List String :=
  splitOnCharGo sep s.data []

/-- Model of `Array.prototype.join(sep)`. -/
def joinWith (sep : String) : List String → String
  | [] => ""
  | x :: xs => xs.foldl (fun acc y => acc ++ sep ++ y) x

/-- Check that `pat` starts the character list `s`. -/
def listStarts : List Char → List Char → Bool
  | [], _ => true
  | _ :: _, [] => false
  | p :: ps, c :: cs => p = c && listStarts ps cs

/-- Count the positions of `s` at which `pat` starts.  For the pattern
actually counted by the scorer, `<UNK:`, no proper nonempty suffix is a
prefix, so occurrences cannot overlap and this equals the number of matches
of the global regular expression `/<UNK:/g` used in the source. -/
def countSub (pat : List Char) : List Char → Nat
  | [] => 0
  | c :: rest => (if listStarts pat (c :: rest) then 1 else 0) + countSub pat rest

/-- Numeric value of a list of decimal digit characters. -/
def digitsVal (cs : List Char) : Nat :=
  cs.foldl (fun n c => 10 * n + (c.toNat - 48)) 0

/-- Model of JavaScript `parseFloat` on the strings reachable from the
dictionary loader: optional leading whitespace, optional sign, a decimal
literal `digits`, `digits.digits` or `.digits`.  Returns `none` when no
digits can be consumed (JavaScript `NaN`).  An exponent suffix is not
modelled; none of the statements below depends on one. -/
def jsParseFloat (s : String) : Option ℚ :=
  let cs := s.data.dropWhile Char.isWhitespace
  let sign : ℚ := if cs.head? = some '-' then -1 else 1
  let cs := if cs.head? = some '-' || cs.head? = some '+' then cs.tail else cs
  let intPart := cs.takeWhile Char.isDigit
  let rest := cs.dropWhile Char.isDigit
  let fracPart := if rest.head? = some '.' then rest.tail.takeWhile Char.isDigit else []
  if intPart = [] ∧ fracPart = [] then none
  else some (sign * ((digitsVal intPart : ℚ) + (digitsVal fracPart : ℚ) / (10 : ℚ) ^ fracPart.length))

/-- Model of JavaScript `Number.prototype.toFixed(1)` for the nonnegative
exact-decimal values produced by the pipeline: round to the nearest tenth and
print with one digit after the point. -/
def jsToFixed1 (q : ℚ) : String :=
  let n : Nat := (Rat.floor (q * 10 + 1 / 2)).toNat
  toString (n / 10) ++ "." ++ toString (n % 10)

/-- Keep the first occurrence of every element, dropping later duplicates;
`seen` records the elements already emitted.  This is the key order of a
JavaScript plain object populated by repeated assignment. -/
def firstDedupGo (seen : List String) : List String → List String
  | [] => []
  | t :: ts => if t ∈ seen then firstDedupGo seen ts else t :: firstDedupGo (t :: seen) ts

/-- Distinct elements of a list, in order of first occurrence. -/
def firstDedup (l : List String) : List String :=
  firstDedupGo [] l

/-- ASCII characters of the Unicode punctuation category `\p{P}`, the portion
of the token-separator class `[\s\p{P}]` of `Splitter.tokenize` exercised by
the repository data. -/
def isJsPunct (c : Char) : Bool :=
  c = '!' || c = '\"' || c = '#' || c = '%' || c = '&' || c = '\'' ||
  c = '(' || c = ')' || c = '*' || c = ',' || c = '-' || c = '.' ||
  c = '/' || c = ':' || c = ';' || c = '?' || c = '@' || c = '[' ||
  c = '\\' || c = ']' || c = '_' || c = '\x7b' || c = '\x7d'

/-- Sentence-terminator class `[.!?]` of `Splitter.process`. -/
def isSentencePunct (c : Char) : Bool :=
  c = '.' || c = '!' || c = '?'

/-- One sentence-like unit produced by the splitter: identifier, trimmed
text, and its tokens (the `start`/`end` offsets of the source record never
feed any later stage and are omitted). -/
structure Segment where
  seg_id : String
  text : String
  tokens : List String
deriving DecidableEq, Repr

/-- Model of `Splitter.tokenize`: split on whitespace and punctuation, keep
nonempty tokens. -/
def Splitter.tokenize (text : String) : List String :=
  (splitRuns (fun c => c.isWhitespace || isJsPunct c) text).filter (fun t => decide (0 < t.length))

/-- Model of `Splitter.process` restricted to its segment output: split the
source on runs of sentence terminators, keep sentences with nonempty trim,
and build one `Segment` per surviving sentence. -/
def Splitter.processSegments (src : String) : List Segment :=
  let sentences := (splitRuns isSentencePunct src).filter (fun s => decide (0 < (jsTrim s).length))
  sentences.enum.map (fun p =>
    ⟨"s" ++ toString (p.1 + 1), jsTrim p.2, Splitter.tokenize (jsTrim p.2)⟩)

/-- One sense of a dictionary key: target word, part of speech, score
(`{mos, pos, score}` in the source). -/
structure DictEntry where
  mos : String
  pos : String
  score : ℚ
deriving DecidableEq, Repr

instance : Inhabited DictEntry := ⟨⟨"", "", 0⟩⟩

/-- Model of the `pos || 'UNK'` default of `DictionaryLookup.loadDictionary`:
an absent (`undefined`) or empty part-of-speech field, both falsy in
JavaScript, becomes `"UNK"`. -/
def jsPosDefault : Option String → String
  | none => "UNK"
  | some p => if p = "" then "UNK" else p

/-- Model of the `parseFloat(score) || 0.5` default of
`DictionaryLookup.loadDictionary`: an absent field (`parseFloat(undefined)`
is `NaN`), an unparsable field (`NaN`), and a field parsing to `0` are all
falsy in JavaScript and become `0.5`. -/
def jsScoreDefault : Option String → ℚ
  | none => 1 / 2
  | some s =>
    match jsParseFloat s with
    | none => 1 / 2
    | some q => if q = 0 then 1 / 2 else q

/-- Model of `Map` insertion as performed by the loader: push the entry onto
the list already stored under `k`, creating the key at the end on first
insertion (JavaScript `Map` iterates in key-insertion order). -/
def insertAppend (dict : List (String × List DictEntry)) (k : String) (e : DictEntry) :
    List (String × List DictEntry) :=
  if dict.any (fun p => p.1 = k) then
    dict.map (fun p => if p.1 = k then (p.1, p.2 ++ [e]) else p)
  else dict ++ [(k, [e])]

/-- Model of one iteration of the record loop of
`DictionaryLookup.loadDictionary`: split the line on tabs into
`fr, mos, pos, score` (missing positions are `undefined`, modelled as
`none`), and store an entry under the case-folded source word when both the
source and the target field are nonempty (truthy). -/
def processDictLine (dict : List (String × List DictEntry)) (line : String) :
    List (String × List DictEntry) :=
  let fields := splitOnChar '\t' line
  let frWord := (fields.get? 0).getD ""
  let mosWord := (fields.get? 1).getD ""
  if frWord ≠ "" ∧ mosWord ≠ "" then
    insertAppend dict (jsToLower frWord)
      ⟨mosWord, jsPosDefault (fields.get? 2), jsScoreDefault (fields.get? 3)⟩
  else dict

/-- Model of `DictionaryLookup.loadDictionary` applied to the text of the
backing table: split into lines, keep lines with nonempty trim, process each
record in order. -/
def loadDictionary (data : String) : List (String × List DictEntry) :=
  ((splitOnChar '\n' data).filter (fun l => decide (0 < (jsTrim l).length))).foldl
    processDictLine []

/-- Model of `Map.prototype.get`: the value stored under `k`, if any. -/
def mapGet (dict : List (String × List DictEntry)) (k : String) : Option (List DictEntry) :=
  (dict.find? (fun p => decide (p.1 = k))).map (fun p => p.2)

/-- Model of the per-token branch of `DictionaryLookup.process`: look the
case-folded token up in the table (`get(key) || []`); when nothing is found,
synthesize the single unknown-word placeholder entry
`{mos: <UNK:token>, pos: UNK, score: 0.1}`. -/
def lookupToken (dict : List (String × List DictEntry)) (token : String) : List DictEntry :=
  let candidates := (mapGet dict (jsToLower token)).getD []
  if candidates.length = 0 then [⟨"<UNK:" ++ token ++ ">", "UNK", 1 / 10⟩]
  else candidates

/-- Array-index property key in the sense of ECMAScript: the canonical
decimal string (digits only, no leading zero except `"0"` itself) of an
integer below `2^32 - 1`.  Such keys are enumerated ahead of all other own
string keys of a plain object. -/
def isArrayIndexKey (s : String) : Bool :=
  match s.data with
  | [] => false
  | c :: cs =>
    (c :: cs).all Char.isDigit && (c != '0' || cs.isEmpty) &&
      decide (digitsVal (c :: cs) < 4294967295)

/-- Numeric comparison of array-index keys, used for their ascending
enumeration order. -/
def keyLE (a b : String) : Prop :=
  digitsVal a.data ≤ digitsVal b.data

instance : DecidableRel keyLE :=
  fun a b => inferInstanceAs (Decidable (digitsVal a.data ≤ digitsVal b.data))

/-- Enumeration order of the own string keys of a JavaScript plain object,
given the keys in insertion order (ECMAScript `OrdinaryOwnPropertyKeys`):
array-index keys first, in ascending numeric order, then the remaining keys
in insertion order.  Distinct array-index keys are canonical, so they denote
distinct numbers and the sort order is unambiguous. -/
def jsObjectKeys (keys : List String) : List String :=
  List.insertionSort keyLE (keys.filter isArrayIndexKey) ++
    keys.filter (fun k => ! isArrayIndexKey k)

/-- Model of the per-segment loop of `DictionaryLookup.process`, which
executes `segmentResults[token] = lookup result` for each token in order.
Assignment to a JavaScript plain object keyed by the token text overwrites in
place, and the lookup result of a given token never changes, so the final
object maps every distinct token (first-occurrence insertion order,
re-enumerated by `jsObjectKeys`: integer-like keys first in ascending
numeric order, then the rest in insertion order) to its lookup result. -/
def buildSegmentResults (dict : List (String × List DictEntry)) (tokens : List String) :
    List (String × List DictEntry) :=
  (jsObjectKeys (firstDedup tokens)).map (fun t => (t, lookupToken dict t))

/-- One corpus record (`{fr, mos, source?}` in the backing JSONL file; the
loader keeps exactly the records whose `fr` and `mos` fields are present and
truthy, which are the ones modelled here). -/
structure CorpusEntry where
  fr : String
  mos : String
  source : Option String
deriving DecidableEq, Repr

/-- One match returned by the corpus search
(`{fr, mos, sim, source}` in the source). -/
structure CorpusMatch where
  fr : String
  mos : String
  sim : ℚ
  source : String
deriving DecidableEq, Repr

/-- Model of `CorpusRetriever.calculateSimilarity`: Jaccard index of the sets
of whitespace-separated tokens of the two strings (`new Set(str.split(/\s+/))`),
`0` when the union is empty.  JavaScript `Set` keeps one copy per distinct
string, so only the number of distinct tokens matters and the sets are
modelled as finite sets. -/
def calculateSimilarity (str1 str2 : String) : ℚ :=
  let set1 := (splitRuns (fun c => c.isWhitespace) str1).toFinset
  let set2 := (splitRuns (fun c => c.isWhitespace) str2).toFinset
  if (set1 ∪ set2).card = 0 then 0
  else ((set1 ∩ set2).card : ℚ) / ((set1 ∪ set2).card : ℚ)

/-- Ordering used to sort corpus matches: the comparator
`(a, b) => b.sim - a.sim` places `a` no later than `b` exactly when
`b.sim ≤ a.sim`. -/
def simGE (a b : CorpusMatch) : Prop :=
  b.sim ≤ a.sim

instance : DecidableRel simGE :=
  fun a b => inferInstanceAs (Decidable (b.sim ≤ a.sim))

instance : IsTotal CorpusMatch simGE :=
  ⟨fun a b => le_total b.sim a.sim⟩

instance : IsTrans CorpusMatch simGE :=
  ⟨fun _ _ _ h1 h2 => le_trans h2 h1⟩

/-- Pre-sort phase of `CorpusRetriever.searchCorpus`: walk the corpus in
order, score every entry against the case-folded query, and keep the entries
with similarity strictly above `0.6`, carrying `source || 'unknown'` as
provenance. -/
def corpusMatchesRaw (query : String) (corpus : List CorpusEntry) : List CorpusMatch :=
  let queryLower := jsToLower query
  corpus.filterMap (fun entry =>
    let sim := calculateSimilarity queryLower (jsToLower entry.fr)
    if sim > 3 / 5 then
      some ⟨entry.fr, entry.mos,
        sim,
        match entry.source with
        | none => "unknown"
        | some s => if s = "" then "unknown" else s⟩
    else none)

/-- Model of `CorpusRetriever.searchCorpus`: filter, sort by similarity
descending with the stable ECMAScript sort (modelled by the stable
`insertionSort`, which produces the same list as any stable sort for this
total preorder), and truncate to the 5 best. -/
def searchCorpus (query : String) (corpus : List CorpusEntry) : List CorpusMatch :=
  (List.insertionSort simGE (corpusMatchesRaw query corpus)).take 5

/-- Result of composing the per-token dictionary winners into one candidate
(`{mos, confidence, word_count}` in the source). -/
structure DictComposition where
  mos : String
  confidence : ℚ
  word_count : Nat
deriving DecidableEq, Repr

/-- Payload attached to a candidate (`details` in the source; the sentinel
candidate carries none). -/
inductive CandidateDetails where
  | ofMatch (m : CorpusMatch)
  | ofComposition (c : DictComposition)
  | noDetails
deriving DecidableEq, Repr

/-- One whole-segment translation candidate
(`{mos, source, confidence, details}` in the source; `source` is one of the
strings `"corpus"`, `"dictionary"`, `"none"`). -/
structure Candidate where
  mos : String
  source : String
  confidence : ℚ
  details : CandidateDetails
deriving DecidableEq, Repr

/-- Model of `Referee.composeDictionaryTranslation`: walk the per-segment
lookup object in key order; every token with a nonempty candidate list
contributes its first (highest-ranked) entry to the space-joined output and
its score to the running total; the confidence is the mean contributed
score, `0.0` when nothing contributed. -/
def composeDictionaryTranslation (dictResult : List (String × List DictEntry)) :
    DictComposition :=
  let contrib := dictResult.filterMap (fun p => p.2.head?)
  ⟨joinWith " " (contrib.map (fun e => e.mos)),
    if contrib.length > 0 then (contrib.map (fun e => e.score)).sum / (contrib.length : ℚ)
    else 0,
    contrib.length⟩

/-- Zero-evidence sentinel candidate synthesized by `Referee.makeDecision`
when the assembled candidate list is empty. -/
def sentinelCandidate (text : String) : Candidate :=
  ⟨"<UNTRANSLATED:" ++ text ++ ">", "none", 0, .noDetails⟩

/-- Model of
`candidates.reduce((best, current) => current.confidence > best.confidence ? current : best)`:
fold over the tail with the head as the accumulator, replacing the current
best only on strictly greater confidence. -/
def selectBest (best : Candidate) : List Candidate → Candidate
  | [] => best
  | c :: cs => selectBest (if best.confidence < c.confidence then c else best) cs

/-- Winner selection of `Referee.makeDecision`: reduce a nonempty candidate
list to the first candidate of maximal confidence, or synthesize the
sentinel for an empty list. -/
def chooseBest (candidates : List Candidate) (text : String) : Candidate :=
  match candidates with
  | [] => sentinelCandidate text
  | c :: cs => selectBest c cs

/-- Model of `Referee.generateExplanation`: a deterministic template keyed on
the winner, citing the confidence as a percentage with one decimal digit. -/
def generateExplanation (bestCandidate : Candidate) (candidates : List Candidate) : String :=
  if candidates.length = 0 then "No translation candidates found"
  else if bestCandidate.source = "corpus" then
    "Corpus match selected with " ++ jsToFixed1 (bestCandidate.confidence * 100) ++ "% similarity"
  else if bestCandidate.source = "dictionary" then
    "Dictionary composition with " ++ jsToFixed1 (bestCandidate.confidence * 100) ++
      "% average word confidence"
  else "Fallback translation used"

/-- Per-segment decision record
(`{seg_id, src_text, final, candidates, explanation}` in the source). -/
structure Decision where
  seg_id : String
  src_text : String
  final : String
  candidates : List Candidate
  explanation : String
deriving DecidableEq, Repr

/-- Model of `Referee.makeDecision`: assemble one candidate per corpus match
(in the returned order), then the dictionary composition when its text has a
nonempty trim (the enclosing `if (dictResult)` is always taken: the lookup
stage defines an object, possibly empty, for every segment), pick the best
candidate — the sentinel when the list is empty — and emit the decision
record.  The sentinel is only ever the chosen winner; it is not inserted
into the candidate list. -/
def makeDecision (segment : Segment) (dictResult : List (String × List DictEntry))
    (matchList : List CorpusMatch) : Decision :=
  let corpusCandidates : List Candidate :=
    matchList.map (fun m => ⟨m.mos, "corpus", m.sim, .ofMatch m⟩)
  let dictComposition := composeDictionaryTranslation dictResult
  let candidates :=
    if 0 < (jsTrim dictComposition.mos).length then
      corpusCandidates ++
        [⟨dictComposition.mos, "dictionary", dictComposition.confidence,
          .ofComposition dictComposition⟩]
    else corpusCandidates
  let bestCandidate := chooseBest candidates segment.text
  ⟨segment.seg_id, segment.text, bestCandidate.mos, candidates,
    generateExplanation bestCandidate candidates⟩

/-- Feature vector extracted by `Scorer.calculateCompositeScore`. -/
structure ScoreFeatures where
  source_confidence : ℚ
  candidate_count : Nat
  length_ratio : ℚ
  unknown_words : Nat
deriving DecidableEq, Repr

/-- Result of `Scorer.calculateCompositeScore`. -/
structure CompositeScore where
  confidence : ℚ
  features : ScoreFeatures
deriving DecidableEq, Repr

/-- Confidence of the first listed candidate, `0` for an empty list: the
value assigned to `features.source_confidence` by the scorer. -/
def firstConfidence : List Candidate → ℚ
  | [] => 0
  | c :: _ => c.confidence

/-- Model of `Scorer.calculateCompositeScore`.  Features: the confidence of
the FIRST listed candidate (`result.candidates[0]`), the candidate count,
the number of `<UNK:` markers in the chosen target, and
`min(tgt/src, src/tgt)` (in rational arithmetic `x / 0 = 0`, which agrees
with the JavaScript value `min(0, Infinity) = 0` reached when the target is
empty, and the `srcLength > 0` guard covers the remaining zero case).
Composite: unknown-word decay `0.7^n`, length penalty `0.8` under ratio
`0.3`, multi-candidate bonus `1.1` capped at `1`, and a final clamp to
`[0, 1]`. -/
def calculateCompositeScore (result : Decision) : CompositeScore :=
  let source_confidence := firstConfidence result.candidates
  let candidate_count := result.candidates.length
  let unknown_words := countSub "<UNK:".data result.final.data
  let srcLength := result.src_text.length
  let tgtLength := result.final.length
  let length_ratio : ℚ :=
    if 0 < srcLength then
      min ((tgtLength : ℚ) / (srcLength : ℚ)) ((srcLength : ℚ) / (tgtLength : ℚ))
    else 0
  let conf1 := if 0 < unknown_words then source_confidence * (7 / 10) ^ unknown_words
    else source_confidence
  let conf2 := if length_ratio < 3 / 10 then conf1 * (8 / 10) else conf1
  let conf3 := if 1 < candidate_count then min 1 (conf2 * (11 / 10)) else conf2
  ⟨max 0 (min 1 conf3),
    ⟨source_confidence, candidate_count, length_ratio, unknown_words⟩⟩

/-- Composite-confidence derivation exactly as the specification words it:
start from the source confidence, multiply by `0.7` once per unknown-token
occurrence, multiply by `0.8` when the length ratio is below `0.3`, then on
more than one candidate multiply by `1.1` and cap at `1.0`, and clamp the
final value to `[0, 1]`.  Stated for comparison against
`calculateCompositeScore`. -/
def specCompositeConfidence (sourceConfidence : ℚ) (unknownTokenCount : Nat)
    (lengthRatio : ℚ) (candidateCount : Nat) : ℚ :=
  let c1 := sourceConfidence * (7 / 10) ^ unknownTokenCount
  let c2 := if lengthRatio < 3 / 10 then c1 * (8 / 10) else c1
  let c3 := if 1 < candidateCount then min 1 (c2 * (11 / 10)) else c2
  max 0 (min 1 c3)

/-! ## Helper lemmas -/

/-- Folding `selectBest` never lowers the confidence of the accumulator. -/
theorem selectBest_le (b : Candidate) (l : List Candidate) :
    b.confidence ≤ (selectBest b l).confidence := by
  induction l generalizing b with
  | nil => exact le_refl _
  | cons c cs ih =>
    rw [selectBest]
    by_cases h : b.confidence < c.confidence
    · simp only [if_pos h]
      exact le_trans (le_of_lt h) (ih c)
    · simp only [if_neg h]
      exact ih b

/-- The result of `selectBest` is the accumulator or a list element. -/
theorem selectBest_mem (b : Candidate) (l : List Candidate) :
    selectBest b l = b ∨ selectBest b l ∈ l := by
  induction l generalizing b with
  | nil => exact Or.inl rfl
  | cons c cs ih =>
    rw [selectBest]
    by_cases h : b.confidence < c.confidence
    · simp only [if_pos h]
      rcases ih c with h1 | h1
      · exact Or.inr (by rw [h1]; exact List.mem_cons_self c cs)
      · exact Or.inr (List.mem_cons_of_mem c h1)
    · simp only [if_neg h]
      rcases ih b with h1 | h1
      · exact Or.inl h1
      · exact Or.inr (List.mem_cons_of_mem c h1)

/-- Every list element is bounded by the confidence of the `selectBest`
result. -/
theorem le_selectBest (b : Candidate) (l : List Candidate) :
    ∀ c ∈ l, c.confidence ≤ (selectBest b l).confidence := by
  induction l generalizing b with
  | nil => intro c hc; cases hc
  | cons a as ih =>
    intro c hc
    rw [selectBest]
    rcases List.mem_cons.mp hc with rfl | hc
    · by_cases h : b.confidence < c.confidence
      · simp only [if_pos h]
        exact selectBest_le c as
      · simp only [if_neg h]
        exact le_trans (le_of_not_lt h) (selectBest_le b as)
    · by_cases h : b.confidence < a.confidence
      · simp only [if_pos h]
        exact ih a c hc
      · simp only [if_neg h]
        exact ih b c hc

/-- The reduction result is the FIRST element of the list (accumulator
included) whose confidence reaches the maximum: scanning from the left, the
first candidate at least as confident as the winner is the winner itself.
This is the tie-break of `current.confidence > best.confidence ? current : best`,
which keeps the earlier candidate on ties. -/
theorem find?_selectBest (b : Candidate) (l : List Candidate) :
    (b :: l).find? (fun c => decide ((selectBest b l).confidence ≤ c.confidence)) =
      some (selectBest b l) := by
  induction l generalizing b with
  | nil =>
    rw [selectBest]
    exact List.find?_cons_of_pos [] (by simp)
  | cons c cs ih =>
    rw [selectBest]
    by_cases h : b.confidence < c.confidence
    · simp only [if_pos h]
      have hcw : c.confidence ≤ (selectBest c cs).confidence := selectBest_le c cs
      have hb : ¬ ((selectBest c cs).confidence ≤ b.confidence) :=
        not_le_of_lt (lt_of_lt_of_le h hcw)
      rw [List.find?_cons_of_neg _ (by simpa using hb)]
      exact ih c
    · simp only [if_neg h]
      have hcb : c.confidence ≤ b.confidence := le_of_not_lt h
      by_cases hwb : (selectBest b cs).confidence ≤ b.confidence
      · have hfind := ih b
        rw [List.find?_cons_of_pos _ (by simpa using hwb)] at hfind
        have hbw : b = selectBest b cs := Option.some.inj hfind
        rw [List.find?_cons_of_pos _ (by simpa using hwb)]
        exact congrArg some hbw
      · have hfind := ih b
        rw [List.find?_cons_of_neg _ (by simpa using hwb)] at hfind
        have hwc : ¬ ((selectBest b cs).confidence ≤ c.confidence) :=
          fun hle => hwb (le_trans hle hcb)
        rw [List.find?_cons_of_neg _ (by simpa using hwb),
          List.find?_cons_of_neg _ (by simpa using hwc)]
        exact hfind

/-- The per-token lookup never returns an empty list: unknown tokens get the
placeholder entry, known tokens their stored (nonempty) sense list. -/
theorem lookupToken_ne_nil (dict : List (String × List DictEntry)) (token : String) :
    lookupToken dict token ≠ [] := by
  rw [lookupToken]
  by_cases h : ((mapGet dict (jsToLower token)).getD []).length = 0
  · simp only [if_pos h]
    exact List.cons_ne_nil _ _
  · simp only [if_neg h]
    exact fun hnil => h (by rw [hnil]; rfl)

/-- Deduplication never lengthens a list. -/
theorem firstDedupGo_length_le (l : List String) :
    ∀ seen, (firstDedupGo seen l).length ≤ l.length := by
  induction l with
  | nil => intro seen; exact le_refl _
  | cons t ts ih =>
    intro seen
    rw [firstDedupGo]
    by_cases h : t ∈ seen
    · simp only [if_pos h]
      exact le_trans (ih seen) (Nat.le_succ _)
    · simp only [if_neg h]
      exact Nat.succ_le_succ (ih (t :: seen))

/-- Deduplication strictly shortens a list holding a repeated element or an
element already seen. -/
theorem firstDedupGo_length_lt (l : List String) :
    ∀ seen, ((∃ x ∈ l, x ∈ seen) ∨ ¬ l.Nodup) →
      (firstDedupGo seen l).length < l.length := by
  induction l with
  | nil =>
    intro seen h
    rcases h with ⟨x, hx, _⟩ | h
    · cases hx
    · exact absurd List.nodup_nil h
  | cons t ts ih =>
    intro seen h
    rw [firstDedupGo]
    by_cases hts : t ∈ seen
    · simp only [if_pos hts]
      exact Nat.lt_succ_of_le (firstDedupGo_length_le ts seen)
    · simp only [if_neg hts]
      refine Nat.succ_lt_succ (ih (t :: seen) ?_)
      rcases h with ⟨x, hx, hxs⟩ | h
      · rcases List.mem_cons.mp hx with rfl | hx
        · exact absurd hxs hts
        · exact Or.inl ⟨x, hx, List.mem_cons_of_mem t hxs⟩
      · rw [List.nodup_cons] at h
        push_neg at h
        by_cases hmem : t ∈ ts
        · exact Or.inl ⟨t, hmem, List.mem_cons_self t seen⟩
        · exact Or.inr (h hmem)

/-- Deduplicating a list with a duplicate occurrence strictly shortens it. -/
theorem firstDedup_length_lt {l : List String} (h : ¬ l.Nodup) :
    (firstDedup l).length < l.length :=
  firstDedupGo_length_lt l [] (Or.inr h)

/-- The contributing entries of the composition over a per-segment lookup
object: every distinct token contributes the first entry of its (never
empty) lookup result. -/
theorem filterMap_head?_buildSegmentResults (dict : List (String × List DictEntry)) :
    ∀ l : List String,
      (l.map (fun t => (t, lookupToken dict t))).filterMap (fun p => p.2.head?) =
        l.map (fun t => (lookupToken dict t).headI) := by
  intro l
  induction l with
  | nil => rfl
  | cons t ts ih =>
    rw [List.map_cons, List.filterMap_cons]
    cases hl : lookupToken dict t with
    | nil => exact absurd hl (lookupToken_ne_nil dict t)
    | cons e es =>
      simp only [hl, List.head?_cons, List.map_cons, List.headI_cons]
      rw [ih]

/-- Filtering the result of an ordered insertion for a fixed similarity
value: every element the insertion skips over has strictly greater
similarity, so it cannot share the similarity of the inserted match. -/
theorem orderedInsert_filter_simEq (s : ℚ) (a : CorpusMatch) :
    ∀ t : List CorpusMatch,
      (List.orderedInsert simGE a t).filter (fun m => decide (m.sim = s)) =
        if a.sim = s then a :: t.filter (fun m => decide (m.sim = s))
        else t.filter (fun m => decide (m.sim = s)) := by
  intro t
  induction t with
  | nil =>
    rw [List.orderedInsert, List.filter_cons]
    by_cases h : a.sim = s
    · rw [if_pos h, if_pos (by simpa using h)]
    · rw [if_neg h, if_neg (by simpa using h)]
  | cons b bs ih =>
    rw [List.orderedInsert]
    by_cases hab : simGE a b
    · rw [if_pos hab, List.filter_cons]
      by_cases h : a.sim = s
      · rw [if_pos (by simpa using h), if_pos h]
      · rw [if_neg (by simpa using h), if_neg h]
    · rw [if_neg hab, List.filter_cons]
      have hba : a.sim < b.sim := lt_of_not_le hab
      by_cases h : a.sim = s
      · have hbs : ¬ (b.sim = s) := by
          intro hbeq
          rw [h] at hba
          rw [hbeq] at hba
          exact lt_irrefl s hba
        rw [if_neg (by simpa using hbs), ih, if_pos h, if_pos h, List.filter_cons,
          if_neg (by simpa using hbs)]
      · rw [ih, if_neg h, if_neg h, List.filter_cons]

/-- Stability of the sort used by the corpus search: the matches carrying a
given similarity value appear in the sorted list exactly as they appear in
the input list. -/
theorem insertionSort_filter_simEq (s : ℚ) :
    ∀ l : List CorpusMatch,
      (List.insertionSort simGE l).filter (fun m => decide (m.sim = s)) =
        l.filter (fun m => decide (m.sim = s)) := by
  intro l
  induction l with
  | nil => rfl
  | cons a as ih =>
    rw [List.insertionSort, orderedInsert_filter_simEq, ih, List.filter_cons]
    by_cases h : a.sim = s
    · rw [if_pos h, if_pos (by simpa using h)]
    · rw [if_neg h, if_neg (by simpa using h)]

/-! ## Claim theorems -/

/-- C6: for every decision, the composite confidence equals the value
obtained by starting from `sourceConfidence`, multiplying by
`0.7 ^ unknownTokenCount`, then by `0.8` when `lengthRatio < 0.3`, then, on
`candidateCount > 1`, multiplying by `1.1` and capping at `1.0`, and finally
clamping to `[0, 1]`; consequently the output always lies in `[0, 1]`, for
arbitrary (also adversarial) feature values. -/
theorem compositeScore_formula_clamped (result : Decision) :
    (calculateCompositeScore result).confidence =
      specCompositeConfidence ((calculateCompositeScore result).features.source_confidence)
        ((calculateCompositeScore result).features.unknown_words)
        ((calculateCompositeScore result).features.length_ratio)
        ((calculateCompositeScore result).features.candidate_count) ∧
    0 ≤ (calculateCompositeScore result).confidence ∧
    (calculateCompositeScore result).confidence ≤ 1 := by
  refine ⟨?_, ?_, ?_⟩
  · simp only [calculateCompositeScore, specCompositeConfidence]
    by_cases hu : 0 < countSub "<UNK:".data result.final.data
    · simp only [if_pos hu]
    · simp only [if_neg hu]
      rw [Nat.eq_zero_of_not_pos hu, pow_zero, mul_one]
  · simp only [calculateCompositeScore]
    exact le_max_left _ _
  · simp only [calculateCompositeScore]
    exact max_le zero_le_one (min_le_left _ _)

/-- C7: for every token whose case-folded form is absent from the loaded
dictionary table, the lookup performed during `DictionaryLookup.process`
returns exactly one entry; its score is `0.1`, its part of speech is
`"UNK"`, and its target is the placeholder embedding the original token
text verbatim. -/
theorem lookup_unknown_token (dict : List (String × List DictEntry)) (token : String)
    (habsent : mapGet dict (jsToLower token) = none) :
    lookupToken dict token = [⟨"<UNK:" ++ token ++ ">", "UNK", 1 / 10⟩] := by
  rw [lookupToken, habsent]
  rfl

/-- Witness for `lookup_unknown_token`: the token `chat` against the
dictionary loaded from an unreadable table (empty text, hence the empty
dictionary of the soft-fail path). -/
theorem lookup_unknown_token_witness :
    lookupToken (loadDictionary "") "chat" = [⟨"<UNK:" ++ "chat" ++ ">", "UNK", 1 / 10⟩] :=
  lookup_unknown_token (loadDictionary "") "chat" (by decide)

/-- C9: the corpus similarity is symmetric, and every nonempty string has
similarity `1.0` with itself (the token set of a string is never empty, so
the self-union has positive cardinality). -/
theorem similarity_symm_refl :
    (∀ a b : String, calculateSimilarity a b = calculateSimilarity b a) ∧
    (∀ a : String, a ≠ "" → calculateSimilarity a a = 1) := by
  constructor
  · intro a b
    rw [calculateSimilarity, calculateSimilarity]
    rw [Finset.union_comm, Finset.inter_comm]
  · intro a _
    rw [calculateSimilarity]
    simp only [Finset.union_self, Finset.inter_self]
    have hne : splitRuns (fun c => c.isWhitespace) a ≠ [] := by
      rw [splitRuns]
      exact List.append_ne_nil_of_right_ne_nil _ (List.cons_ne_nil _ _)
    obtain ⟨x, hx⟩ := List.exists_mem_of_ne_nil _ hne
    have hcard : ((splitRuns (fun c => c.isWhitespace) a).toFinset).card ≠ 0 :=
      Finset.card_ne_zero_of_mem (List.mem_toFinset.mpr hx)
    rw [if_neg hcard]
    exact div_self (Nat.cast_ne_zero.mpr hcard)

/-- Witness for `similarity_symm_refl`: the self-similarity of the nonempty
string `je vais`. -/
theorem similarity_symm_refl_witness :
    calculateSimilarity "je vais" "je vais" = 1 :=
  similarity_symm_refl.2 "je vais" (by decide)

/-- C5: for every query and corpus, the corpus search returns at most 5
matches, every returned match has similarity strictly greater than `0.6`,
the returned sequence is non-increasing in similarity, and the matches
carrying any fixed similarity value appear as a subsequence of the
pre-sort match list, hence in their original corpus order. -/
theorem searchCorpus_spec (query : String) (corpus : List CorpusEntry) :
    (searchCorpus query corpus).length ≤ 5 ∧
    (∀ m ∈ searchCorpus query corpus, 3 / 5 < m.sim) ∧
    List.Pairwise (fun a b : CorpusMatch => b.sim ≤ a.sim) (searchCorpus query corpus) ∧
    (∀ s : ℚ, ((searchCorpus query corpus).filter (fun m => decide (m.sim = s))).Sublist
        ((corpusMatchesRaw query corpus).filter (fun m => decide (m.sim = s)))) := by
  refine ⟨?_, ?_, ?_, ?_⟩
  · rw [searchCorpus]
    exact List.length_take_le 5 _
  · intro m hm
    have h1 : m ∈ List.insertionSort simGE (corpusMatchesRaw query corpus) :=
      (List.take_sublist 5 _).subset hm
    have h2 : m ∈ corpusMatchesRaw query corpus := (List.mem_insertionSort simGE).mp h1
    simp only [corpusMatchesRaw] at h2
    rw [List.mem_filterMap] at h2
    obtain ⟨entry, _, heq⟩ := h2
    by_cases hgt : calculateSimilarity (jsToLower query) (jsToLower entry.fr) > 3 / 5
    · rw [if_pos hgt] at heq
      have hm2 := Option.some.inj heq
      rw [← hm2]
      exact hgt
    · rw [if_neg hgt] at heq
      exact absurd heq (by simp)
  · have hs := List.sorted_insertionSort simGE (corpusMatchesRaw query corpus)
    exact List.Pairwise.sublist (List.take_sublist 5 _) hs
  · intro s
    have h1 := List.Sublist.filter (fun m : CorpusMatch => decide (m.sim = s))
      (List.take_sublist 5 (List.insertionSort simGE (corpusMatchesRaw query corpus)))
    rw [insertionSort_filter_simEq] at h1
    exact h1

/-- Witness for `searchCorpus_spec`: the bound and the stability subsequence
at a concrete query, corpus and similarity value. -/
theorem searchCorpus_spec_witness :
    (searchCorpus "a b" []).length ≤ 5 ∧
    ((searchCorpus "a b" []).filter (fun m => decide (m.sim = 1))).Sublist
      ((corpusMatchesRaw "a b" []).filter (fun m => decide (m.sim = 1))) :=
  ⟨(searchCorpus_spec "a b" []).1, (searchCorpus_spec "a b" []).2.2.2 1⟩

/-- Re-enumerating a key list never changes its length: the array-index
keys and the remaining keys partition it. -/
theorem jsObjectKeys_length (keys : List String) :
    (jsObjectKeys keys).length = keys.length := by
  rw [jsObjectKeys, List.length_append, List.length_insertionSort]
  have h := (List.filter_append_perm isArrayIndexKey keys).length_eq
  rw [List.length_append] at h
  exact h

/-- C10: in a segment repeating a token text, the per-segment lookup object
is keyed by token text, so the dictionary composition contains the repeated
token contribution only once: the composed word list runs over the distinct
tokens (in ECMAScript enumeration order: integer-like tokens first in
ascending numeric order, then the rest in order of first occurrence), its
length is the distinct-token count — strictly less than one word per source
token — and that length is also the divisor of the confidence mean. -/
theorem duplicate_tokens_collapse (dict : List (String × List DictEntry))
    (tokens : List String) (hdup : ¬ tokens.Nodup) :
    (composeDictionaryTranslation (buildSegmentResults dict tokens)).word_count =
      (firstDedup tokens).length ∧
    (composeDictionaryTranslation (buildSegmentResults dict tokens)).word_count <
      tokens.length ∧
    (composeDictionaryTranslation (buildSegmentResults dict tokens)).mos =
      joinWith " "
        ((jsObjectKeys (firstDedup tokens)).map (fun t => (lookupToken dict t).headI.mos)) := by
  have hc := filterMap_head?_buildSegmentResults dict (jsObjectKeys (firstDedup tokens))
  refine ⟨?_, ?_, ?_⟩
  · simp only [composeDictionaryTranslation, buildSegmentResults]
    rw [hc, List.length_map, jsObjectKeys_length]
  · simp only [composeDictionaryTranslation, buildSegmentResults]
    rw [hc, List.length_map, jsObjectKeys_length]
    exact firstDedup_length_lt hdup
  · simp only [composeDictionaryTranslation, buildSegmentResults]
    rw [hc, List.map_map]
    rfl

/-- Witness for `duplicate_tokens_collapse`: the token list
`le, chat, le` against the empty dictionary composes two words, fewer than
its three tokens. -/
theorem duplicate_tokens_collapse_witness :
    (composeDictionaryTranslation
        (buildSegmentResults (loadDictionary "") ["le", "chat", "le"])).word_count <
      (["le", "chat", "le"] : List String).length :=
  (duplicate_tokens_collapse (loadDictionary "") ["le", "chat", "le"] (by decide)).2.1

/-- C1 (amended): the `sourceConfidence` feature equals the confidence of
the FIRST-listed candidate (`candidates[0]`), `0` when the candidate list is
empty (the sentinel-only case); it coincides with the winning candidate's
confidence exactly when no later-listed candidate strictly exceeds the
first, in particular whenever the first-listed corpus candidate already
attains the maximum. -/
theorem sourceConfidence_first_listed (seg : Segment)
    (dictResult : List (String × List DictEntry)) (matchList : List CorpusMatch) :
    (calculateCompositeScore (makeDecision seg dictResult matchList)).features.source_confidence =
      firstConfidence (makeDecision seg dictResult matchList).candidates ∧
    ((∀ c ∈ (makeDecision seg dictResult matchList).candidates,
        c.confidence ≤ firstConfidence (makeDecision seg dictResult matchList).candidates) →
      (calculateCompositeScore (makeDecision seg dictResult matchList)).features.source_confidence =
        (chooseBest (makeDecision seg dictResult matchList).candidates seg.text).confidence) := by
  refine ⟨rfl, ?_⟩
  intro h
  have h1 : (calculateCompositeScore (makeDecision seg dictResult matchList)).features.source_confidence =
      firstConfidence (makeDecision seg dictResult matchList).candidates := rfl
  rw [h1]
  cases hL : (makeDecision seg dictResult matchList).candidates with
  | nil => rfl
  | cons c cs =>
    rw [hL] at h
    show c.confidence = (selectBest c cs).confidence
    refine le_antisymm (selectBest_le c cs) ?_
    rcases selectBest_mem c cs with he | he
    · rw [he]
    · exact h _ (List.mem_cons_of_mem c he)

/-- Witness for `sourceConfidence_first_listed`: a segment with one corpus
candidate of confidence `1` and a dictionary candidate of confidence `1/2`;
the first-listed candidate attains the maximum, and the feature equals the
winning confidence. -/
theorem sourceConfidence_first_listed_witness :
    (calculateCompositeScore (makeDecision ⟨"s1", "bonjour", ["bonjour"]⟩
        [("bonjour", [⟨"A", "X", 1 / 2⟩])] [⟨"bonjour", "T", 1, "manual"⟩])).features.source_confidence =
      (chooseBest (makeDecision ⟨"s1", "bonjour", ["bonjour"]⟩
        [("bonjour", [⟨"A", "X", 1 / 2⟩])] [⟨"bonjour", "T", 1, "manual"⟩]).candidates
        "bonjour").confidence := by
  refine (sourceConfidence_first_listed ⟨"s1", "bonjour", ["bonjour"]⟩
    [("bonjour", [⟨"A", "X", 1 / 2⟩])] [⟨"bonjour", "T", 1, "manual"⟩]).2 ?_
  have hcand : (makeDecision ⟨"s1", "bonjour", ["bonjour"]⟩
      [("bonjour", [⟨"A", "X", 1 / 2⟩])] [⟨"bonjour", "T", 1, "manual"⟩]).candidates =
      [⟨"T", "corpus", 1, .ofMatch ⟨"bonjour", "T", 1, "manual"⟩⟩,
        ⟨"A", "dictionary",
          (([⟨"A", "X", 1 / 2⟩] : List DictEntry).map (fun e => e.score)).sum /
            ((([⟨"A", "X", 1 / 2⟩] : List DictEntry).length : Nat) : ℚ),
          .ofComposition (composeDictionaryTranslation [("bonjour", [⟨"A", "X", 1 / 2⟩])])⟩] := rfl
  rw [hcand]
  intro c hc
  rcases List.mem_cons.mp hc with rfl | hc
  · exact le_refl _
  · rcases List.mem_cons.mp hc with rfl | hc
    · show ([(1:ℚ)/2].sum / ((1:Nat):ℚ)) ≤ firstConfidence _
      norm_num [firstConfidence]
    · cases hc

/-- C1 counterexample: a decision whose corpus candidate (listed first, with
similarity `3/4`) is beaten by the later dictionary candidate (mean score
`9/10`, the winner): the scorer's `sourceConfidence` feature is `3/4`, the
confidence of the first-listed candidate, and differs from the winning
candidate's confidence `9/10`. -/
theorem sourceConfidence_not_winner_cex :
    (calculateCompositeScore (makeDecision ⟨"s1", "bonjour le monde", ["bonjour", "le", "monde"]⟩
        [("bonjour", [⟨"A", "X", 9 / 10⟩]), ("le", [⟨"B", "X", 9 / 10⟩]),
          ("monde", [⟨"C", "X", 9 / 10⟩])]
        [⟨"bonjour le monde matin", "Mtgt", 3 / 4, "manual"⟩])).features.source_confidence = 3 / 4 ∧
    (chooseBest (makeDecision ⟨"s1", "bonjour le monde", ["bonjour", "le", "monde"]⟩
        [("bonjour", [⟨"A", "X", 9 / 10⟩]), ("le", [⟨"B", "X", 9 / 10⟩]),
          ("monde", [⟨"C", "X", 9 / 10⟩])]
        [⟨"bonjour le monde matin", "Mtgt", 3 / 4, "manual"⟩]).candidates
      "bonjour le monde").confidence = 9 / 10 ∧
    ((3 : ℚ) / 4) ≠ 9 / 10 := by
  have hcomp : composeDictionaryTranslation
      [("bonjour", [⟨"A", "X", 9 / 10⟩]), ("le", [⟨"B", "X", 9 / 10⟩]),
        ("monde", [⟨"C", "X", 9 / 10⟩])] = ⟨"A B C", 9 / 10, 3⟩ := by
    simp only [composeDictionaryTranslation, List.filterMap_cons, List.filterMap_nil,
      List.head?_cons, List.map_cons, List.map_nil, List.sum_cons, List.sum_nil,
      List.length_cons, List.length_nil]
    refine congrArg₂ (DictComposition.mk (joinWith " " ["A", "B", "C"])) ?_ rfl
    norm_num
  have hcand : (makeDecision ⟨"s1", "bonjour le monde", ["bonjour", "le", "monde"]⟩
      [("bonjour", [⟨"A", "X", 9 / 10⟩]), ("le", [⟨"B", "X", 9 / 10⟩]),
        ("monde", [⟨"C", "X", 9 / 10⟩])]
      [⟨"bonjour le monde matin", "Mtgt", 3 / 4, "manual"⟩]).candidates =
      [⟨"Mtgt", "corpus", 3 / 4, .ofMatch ⟨"bonjour le monde matin", "Mtgt", 3 / 4, "manual"⟩⟩,
        ⟨"A B C", "dictionary", 9 / 10, .ofComposition ⟨"A B C", 9 / 10, 3⟩⟩] := by
    simp only [makeDecision, hcomp, List.map_cons, List.map_nil]
    rw [if_pos (by decide : 0 < (jsTrim ((⟨"A B C", 9 / 10, 3⟩ : DictComposition).mos)).length)]
    rfl
  refine ⟨?_, ?_, by norm_num⟩
  · have h1 : (calculateCompositeScore (makeDecision ⟨"s1", "bonjour le monde", ["bonjour", "le", "monde"]⟩
        [("bonjour", [⟨"A", "X", 9 / 10⟩]), ("le", [⟨"B", "X", 9 / 10⟩]),
          ("monde", [⟨"C", "X", 9 / 10⟩])]
        [⟨"bonjour le monde matin", "Mtgt", 3 / 4, "manual"⟩])).features.source_confidence =
        firstConfidence (makeDecision ⟨"s1", "bonjour le monde", ["bonjour", "le", "monde"]⟩
        [("bonjour", [⟨"A", "X", 9 / 10⟩]), ("le", [⟨"B", "X", 9 / 10⟩]),
          ("monde", [⟨"C", "X", 9 / 10⟩])]
        [⟨"bonjour le monde matin", "Mtgt", 3 / 4, "manual"⟩]).candidates := rfl
    rw [h1, hcand]
    rfl
  · rw [hcand]
    show (selectBest ⟨"Mtgt", "corpus", 3 / 4, .ofMatch ⟨"bonjour le monde matin", "Mtgt", 3 / 4, "manual"⟩⟩
      [⟨"A B C", "dictionary", 9 / 10, .ofComposition ⟨"A B C", 9 / 10, 3⟩⟩]).confidence = 9 / 10
    rw [selectBest, if_pos (by norm_num : ((⟨"Mtgt", "corpus", 3 / 4,
      .ofMatch ⟨"bonjour le monde matin", "Mtgt", 3 / 4, "manual"⟩⟩ : Candidate)).confidence <
      ((⟨"A B C", "dictionary", 9 / 10, .ofComposition ⟨"A B C", 9 / 10, 3⟩⟩ : Candidate)).confidence)]
    rfl

/-- Winner-selection invariants of `chooseBest` over an arbitrary candidate
list. -/
theorem chooseBest_max (L : List Candidate) (text : String) :
    (∀ c ∈ L, c.confidence ≤ (chooseBest L text).confidence) ∧
    (L = [] → chooseBest L text = sentinelCandidate text) ∧
    (L ≠ [] → L.find? (fun c => decide ((chooseBest L text).confidence ≤ c.confidence)) =
      some (chooseBest L text)) := by
  cases L with
  | nil =>
    refine ⟨fun c hc => absurd hc (List.not_mem_nil c), fun _ => rfl, fun h => absurd rfl h⟩
  | cons c cs =>
    refine ⟨?_, fun h => absurd h (List.cons_ne_nil c cs), fun _ => find?_selectBest c cs⟩
    intro x hx
    rcases List.mem_cons.mp hx with rfl | hx
    · exact selectBest_le x cs
    · exact le_selectBest c cs x hx

/-- C2 (amended): the decision of `Referee.makeDecision` carries the chosen
target of the best candidate, the winner's confidence is the maximum
confidence in the candidate list with ties broken toward the earliest-listed
candidate, and when no corpus match and no non-empty dictionary composition
exist the candidate list is EMPTY — the zero-evidence sentinel (origin
`none`, confidence `0.0`) is only the returned winner, never a member of the
list. -/
theorem arbiter_winner_max_confidence (seg : Segment)
    (dictResult : List (String × List DictEntry)) (matchList : List CorpusMatch) :
    (makeDecision seg dictResult matchList).final =
      (chooseBest (makeDecision seg dictResult matchList).candidates seg.text).mos ∧
    (∀ c ∈ (makeDecision seg dictResult matchList).candidates,
      c.confidence ≤
        (chooseBest (makeDecision seg dictResult matchList).candidates seg.text).confidence) ∧
    ((makeDecision seg dictResult matchList).candidates = [] →
      chooseBest (makeDecision seg dictResult matchList).candidates seg.text =
        sentinelCandidate seg.text) ∧
    ((makeDecision seg dictResult matchList).candidates ≠ [] →
      (makeDecision seg dictResult matchList).candidates.find?
          (fun c => decide
            ((chooseBest (makeDecision seg dictResult matchList).candidates seg.text).confidence ≤
              c.confidence)) =
        some (chooseBest (makeDecision seg dictResult matchList).candidates seg.text)) := by
  obtain ⟨h1, h2, h3⟩ := chooseBest_max (makeDecision seg dictResult matchList).candidates seg.text
  exact ⟨rfl, h1, h2, h3⟩

/-- Witness for `arbiter_winner_max_confidence`: a decision with one corpus
candidate; its nonempty candidate list makes the winner the first candidate
reaching the maximal confidence. -/
theorem arbiter_winner_max_confidence_witness :
    (makeDecision ⟨"s1", "bonjour", ["bonjour"]⟩ [] [⟨"bonjour", "T", 1, "manual"⟩]).candidates.find?
        (fun c => decide
          ((chooseBest (makeDecision ⟨"s1", "bonjour", ["bonjour"]⟩ []
              [⟨"bonjour", "T", 1, "manual"⟩]).candidates "bonjour").confidence ≤ c.confidence)) =
      some (chooseBest (makeDecision ⟨"s1", "bonjour", ["bonjour"]⟩ []
        [⟨"bonjour", "T", 1, "manual"⟩]).candidates "bonjour") :=
  (arbiter_winner_max_confidence ⟨"s1", "bonjour", ["bonjour"]⟩ []
    [⟨"bonjour", "T", 1, "manual"⟩]).2.2.2 (by decide)

/-- C2 counterexample: the source `","` splits into one segment with no
tokens; against the empty dictionary and the empty corpus its decision has
an EMPTY candidate list — no sentinel candidate is present in the list,
refuting the claim that the list is never empty. -/
theorem candidates_can_be_empty_cex :
    Splitter.processSegments "," = [⟨"s1", ",", []⟩] ∧
    (makeDecision ⟨"s1", ",", []⟩ (buildSegmentResults (loadDictionary "") [])
      (searchCorpus "," [])).candidates = [] :=
  ⟨by decide, by decide⟩

/-- C3 (amended): the sentinel is produced exactly by an empty candidate
list.  A segment with NO tokens (so the dictionary composition is empty) and
no corpus matches yields the sentinel (origin `none`, the untranslated
placeholder embedding the source text) as the chosen translation with
composite confidence exactly `0.0`.  A token-bearing segment with zero
dictionary coverage instead yields the `<UNK:...>` dictionary composition
(confidence `0.1`), not the sentinel — see the counterexample. -/
theorem sentinel_when_no_evidence (seg : Segment) (dict : List (String × List DictEntry))
    (htok : seg.tokens = []) :
    (makeDecision seg (buildSegmentResults dict seg.tokens) []).candidates = [] ∧
    (makeDecision seg (buildSegmentResults dict seg.tokens) []).final =
      "<UNTRANSLATED:" ++ seg.text ++ ">" ∧
    (calculateCompositeScore (makeDecision seg (buildSegmentResults dict seg.tokens) [])).confidence
      = 0 := by
  rw [htok]
  have hd : makeDecision seg (buildSegmentResults dict []) [] =
      ⟨seg.seg_id, seg.text, "<UNTRANSLATED:" ++ seg.text ++ ">", [],
        "No translation candidates found"⟩ := rfl
  rw [hd]
  refine ⟨rfl, rfl, ?_⟩
  simp only [calculateCompositeScore, firstConfidence, List.length_nil, zero_mul, ite_self]
  rw [if_neg (by norm_num : ¬ (1 : Nat) < 0)]
  norm_num [min_def, max_def]

/-- Witness for `sentinel_when_no_evidence`: the token-free segment produced
by splitting the source `","`. -/
theorem sentinel_when_no_evidence_witness :
    (makeDecision ⟨"s1", ",", []⟩ (buildSegmentResults (loadDictionary "") []) []).candidates = [] ∧
    (makeDecision ⟨"s1", ",", []⟩ (buildSegmentResults (loadDictionary "") []) []).final =
      "<UNTRANSLATED:" ++ "," ++ ">" ∧
    (calculateCompositeScore
      (makeDecision ⟨"s1", ",", []⟩ (buildSegmentResults (loadDictionary "") []) [])).confidence
      = 0 :=
  sentinel_when_no_evidence ⟨"s1", ",", []⟩ (loadDictionary "") rfl

/-- C3 counterexample: the one-token segment `xyz` has zero dictionary
coverage (its token is absent from the empty dictionary) and zero corpus
matches, yet the pipeline does NOT yield the sentinel: the unknown-token
placeholder gives the dictionary composition confidence `0.1`, the chosen
translation is `<UNK:xyz>`, and the composite confidence is
`0.1 * 0.7 = 0.07`, not `0.0`. -/
theorem zero_coverage_not_sentinel_cex :
    mapGet (loadDictionary "") (jsToLower "xyz") = none ∧
    searchCorpus "xyz" [] = [] ∧
    (makeDecision ⟨"s1", "xyz", ["xyz"]⟩ (buildSegmentResults (loadDictionary "") ["xyz"])
      (searchCorpus "xyz" [])).final = "<UNK:xyz>" ∧
    ("<UNK:xyz>" : String) ≠ "<UNTRANSLATED:" ++ "xyz" ++ ">" ∧
    (calculateCompositeScore (makeDecision ⟨"s1", "xyz", ["xyz"]⟩
      (buildSegmentResults (loadDictionary "") ["xyz"]) (searchCorpus "xyz" []))).confidence =
      7 / 100 ∧
    ((7 : ℚ) / 100) ≠ 0 := by
  have hcomp : composeDictionaryTranslation (buildSegmentResults (loadDictionary "") ["xyz"]) =
      ⟨"<UNK:xyz>", 1 / 10, 1⟩ := by
    have hb : buildSegmentResults (loadDictionary "") ["xyz"] =
        [("xyz", [⟨"<UNK:" ++ "xyz" ++ ">", "UNK", 1 / 10⟩])] := rfl
    rw [hb]
    simp only [composeDictionaryTranslation, List.filterMap_cons, List.filterMap_nil,
      List.head?_cons, List.map_cons, List.map_nil, List.sum_cons, List.sum_nil,
      List.length_cons, List.length_nil]
    refine congrArg₂ (DictComposition.mk _) ?_ rfl
    norm_num
  have hcand : (makeDecision ⟨"s1", "xyz", ["xyz"]⟩
      (buildSegmentResults (loadDictionary "") ["xyz"]) (searchCorpus "xyz" [])).candidates =
      [⟨"<UNK:xyz>", "dictionary", 1 / 10, .ofComposition ⟨"<UNK:xyz>", 1 / 10, 1⟩⟩] := by
    have hms : searchCorpus "xyz" [] = [] := by decide
    simp only [makeDecision, hms, hcomp, List.map_nil]
    rw [if_pos (by decide : 0 < (jsTrim ((⟨"<UNK:xyz>", 1 / 10, 1⟩ : DictComposition).mos)).length)]
    rfl
  have hfinal : (makeDecision ⟨"s1", "xyz", ["xyz"]⟩
      (buildSegmentResults (loadDictionary "") ["xyz"]) (searchCorpus "xyz" [])).final =
      "<UNK:xyz>" := by
    have h1 : (makeDecision ⟨"s1", "xyz", ["xyz"]⟩
        (buildSegmentResults (loadDictionary "") ["xyz"]) (searchCorpus "xyz" [])).final =
        (chooseBest (makeDecision ⟨"s1", "xyz", ["xyz"]⟩
          (buildSegmentResults (loadDictionary "") ["xyz"]) (searchCorpus "xyz" [])).candidates
          "xyz").mos := rfl
    rw [h1, hcand]
    rfl
  refine ⟨by decide, by decide, hfinal, by decide, ?_, by norm_num⟩
  have hsrc : (makeDecision ⟨"s1", "xyz", ["xyz"]⟩
      (buildSegmentResults (loadDictionary "") ["xyz"]) (searchCorpus "xyz" [])).src_text =
      "xyz" := rfl
  have hcount : countSub "<UNK:".data ("<UNK:xyz>" : String).data = 1 := by decide
  have hlen1 : ("xyz" : String).length = 3 := by decide
  have hlen2 : ("<UNK:xyz>" : String).length = 9 := by decide
  simp only [calculateCompositeScore, hcand, hfinal, hsrc, firstConfidence, hcount, hlen1, hlen2,
    List.length_cons, List.length_nil]
  norm_num [min_def, max_def]

/-- C4 counterexample: processing the source sentence `Je vais au marché.`
through the pipeline strips the sentence-final period in the splitter, so
the corpus query runs on `Je vais au marché`; against the corpus entry whose
source text is exactly `Je vais au marché.` the Jaccard similarity is then
`3/5` (the tokens `marché` and `marché.` differ), NOT `1.0`, which fails the
strict `> 0.6` threshold: the query returns no match at all and the corpus
target is not chosen. -/
theorem exact_match_pipeline_cex :
    Splitter.processSegments "Je vais au marché." =
      [⟨"s1", "Je vais au marché", ["Je", "vais", "au", "marché"]⟩] ∧
    calculateSimilarity (jsToLower "Je vais au marché") (jsToLower "Je vais au marché.") =
      3 / 5 ∧
    ¬ ((3 : ℚ) / 5 > 3 / 5) ∧
    searchCorpus "Je vais au marché"
      [⟨"Je vais au marché.", "N zɩ̀ nà zaabā.", some "manual_v1"⟩] = [] ∧
    (makeDecision ⟨"s1", "Je vais au marché", ["Je", "vais", "au", "marché"]⟩
        (buildSegmentResults (loadDictionary "") ["Je", "vais", "au", "marché"])
        (searchCorpus "Je vais au marché"
          [⟨"Je vais au marché.", "N zɩ̀ nà zaabā.", some "manual_v1"⟩])).final ≠
      "N zɩ̀ nà zaabā." := by
  have hsim : calculateSimilarity (jsToLower "Je vais au marché")
      (jsToLower "Je vais au marché.") = 3 / 5 := by
    have h1 : (((splitRuns (fun c => c.isWhitespace) (jsToLower "Je vais au marché")).toFinset ∩
        (splitRuns (fun c => c.isWhitespace) (jsToLower "Je vais au marché.")).toFinset)).card =
        3 := by decide
    have h2 : (((splitRuns (fun c => c.isWhitespace) (jsToLower "Je vais au marché")).toFinset ∪
        (splitRuns (fun c => c.isWhitespace) (jsToLower "Je vais au marché.")).toFinset)).card =
        5 := by decide
    rw [calculateSimilarity]
    simp only [h1, h2]
    norm_num
  have hms : searchCorpus "Je vais au marché"
      [⟨"Je vais au marché.", "N zɩ̀ nà zaabā.", some "manual_v1"⟩] = [] := by
    simp only [searchCorpus, corpusMatchesRaw, List.filterMap_cons, List.filterMap_nil]
    rw [hsim, if_neg (by norm_num : ¬ ((3 : ℚ) / 5 > 3 / 5))]
    rfl
  refine ⟨by decide, hsim, by norm_num, hms, ?_⟩
  rw [hms]
  decide

/-- Corpus of the exact-match scenario: the single entry whose source
sentence is exactly `Je vais au marché.` (target `N zɩ̀ nà zaabā.`,
provenance `manual_v1`). -/
def corpusC4 : List CorpusEntry :=
  [⟨"Je vais au marché.", "N zɩ̀ nà zaabā.", some "manual_v1"⟩]

/-- Segment of the exact-match scenario in which the corpus query keeps the
full sentence text (trailing period retained). -/
def segC4 : Segment :=
  ⟨"s1", "Je vais au marché.", ["Je", "vais", "au", "marché"]⟩

/-- Decision of the exact-match scenario: empty dictionary, corpus query on
the full sentence text. -/
def decisionC4 : Decision :=
  makeDecision segC4 (buildSegmentResults (loadDictionary "") segC4.tokens)
    (searchCorpus "Je vais au marché." corpusC4)

/-- C4 (amended): when the corpus query is made with the full sentence text
`Je vais au marché.` (trailing period retained, the situation the scenario
describes), the entry scores Jaccard similarity `1.0`, the corpus candidate
wins with confidence `1.0`, the explanation cites `100.0%` similarity, and
the composite confidence is `1.0`.  (Through the pipeline the splitter
strips the final period and the entry is filtered out; see the
counterexample.) -/
theorem exact_match_direct_query :
    searchCorpus "Je vais au marché." corpusC4 =
      [⟨"Je vais au marché.", "N zɩ̀ nà zaabā.", 1, "manual_v1"⟩] ∧
    decisionC4.final = "N zɩ̀ nà zaabā." ∧
    (chooseBest decisionC4.candidates segC4.text).confidence = 1 ∧
    decisionC4.explanation = "Corpus match selected with 100.0% similarity" ∧
    (calculateCompositeScore decisionC4).confidence = 1 := by
  have hsim1 : calculateSimilarity (jsToLower "Je vais au marché.")
      (jsToLower "Je vais au marché.") = 1 := by
    have h1 : (((splitRuns (fun c => c.isWhitespace) (jsToLower "Je vais au marché.")).toFinset ∩
        (splitRuns (fun c => c.isWhitespace) (jsToLower "Je vais au marché.")).toFinset)).card =
        4 := by decide
    have h2 : (((splitRuns (fun c => c.isWhitespace) (jsToLower "Je vais au marché.")).toFinset ∪
        (splitRuns (fun c => c.isWhitespace) (jsToLower "Je vais au marché.")).toFinset)).card =
        4 := by decide
    rw [calculateSimilarity]
    simp only [h1, h2]
    norm_num
  have hms : searchCorpus "Je vais au marché." corpusC4 =
      [⟨"Je vais au marché.", "N zɩ̀ nà zaabā.", 1, "manual_v1"⟩] := by
    simp only [corpusC4, searchCorpus, corpusMatchesRaw, List.filterMap_cons, List.filterMap_nil]
    rw [hsim1, if_pos (by norm_num : (1 : ℚ) > 3 / 5)]
    rw [if_neg (by decide : ¬ ("manual_v1" = ""))]
    simp only [List.insertionSort, List.orderedInsert, List.take]
  have hcomp : composeDictionaryTranslation (buildSegmentResults (loadDictionary "") segC4.tokens) =
      ⟨"<UNK:Je> <UNK:vais> <UNK:au> <UNK:marché>", 1 / 10, 4⟩ := by
    have hb : buildSegmentResults (loadDictionary "") segC4.tokens =
        [("Je", [⟨"<UNK:" ++ "Je" ++ ">", "UNK", 1 / 10⟩]),
          ("vais", [⟨"<UNK:" ++ "vais" ++ ">", "UNK", 1 / 10⟩]),
          ("au", [⟨"<UNK:" ++ "au" ++ ">", "UNK", 1 / 10⟩]),
          ("marché", [⟨"<UNK:" ++ "marché" ++ ">", "UNK", 1 / 10⟩])] := rfl
    rw [hb]
    simp only [composeDictionaryTranslation, List.filterMap_cons, List.filterMap_nil,
      List.head?_cons, List.map_cons, List.map_nil, List.sum_cons, List.sum_nil,
      List.length_cons, List.length_nil]
    refine congrArg₂ (DictComposition.mk _) ?_ rfl
    norm_num
  have hcand : decisionC4.candidates =
      [⟨"N zɩ̀ nà zaabā.", "corpus", 1,
          .ofMatch ⟨"Je vais au marché.", "N zɩ̀ nà zaabā.", 1, "manual_v1"⟩⟩,
        ⟨"<UNK:Je> <UNK:vais> <UNK:au> <UNK:marché>", "dictionary", 1 / 10,
          .ofComposition ⟨"<UNK:Je> <UNK:vais> <UNK:au> <UNK:marché>", 1 / 10, 4⟩⟩] := by
    simp only [decisionC4, makeDecision, hms, hcomp, List.map_cons, List.map_nil]
    rw [if_pos (by decide :
      0 < (jsTrim ((⟨"<UNK:Je> <UNK:vais> <UNK:au> <UNK:marché>", 1 / 10, 4⟩ :
        DictComposition).mos)).length)]
    rfl
  have hwin : chooseBest decisionC4.candidates segC4.text =
      ⟨"N zɩ̀ nà zaabā.", "corpus", 1,
        .ofMatch ⟨"Je vais au marché.", "N zɩ̀ nà zaabā.", 1, "manual_v1"⟩⟩ := by
    rw [hcand]
    show selectBest _ _ = _
    rw [selectBest, if_neg (by norm_num : ¬ ((1 : ℚ) < 1 / 10))]
    rfl
  have hfinal : decisionC4.final = "N zɩ̀ nà zaabā." := by
    have h1 : decisionC4.final = (chooseBest decisionC4.candidates segC4.text).mos := rfl
    rw [h1, hwin]
  have hfix : jsToFixed1 ((1 : ℚ) * 100) = "100.0" := by
    simp only [jsToFixed1]
    have h1 : ((1 : ℚ) * 100 * 10 + 1 / 2) = 2001 / 2 := by norm_num
    rw [h1]
    have h2 : Rat.floor ((2001 : ℚ) / 2) = 1000 := by
      have ha : (1000 : ℤ) ≤ Rat.floor ((2001 : ℚ) / 2) := Rat.le_floor.mpr (by norm_num)
      have hb2 : ¬ ((1001 : ℤ) ≤ Rat.floor ((2001 : ℚ) / 2)) := by
        intro hcon
        have hled := Rat.le_floor.mp hcon
        norm_num at hled
      omega
    rw [h2]
    decide
  have hexp : decisionC4.explanation = "Corpus match selected with 100.0% similarity" := by
    have h1 : decisionC4.explanation =
        generateExplanation (chooseBest decisionC4.candidates segC4.text)
          decisionC4.candidates := rfl
    rw [h1, hwin, hcand, generateExplanation]
    rw [if_neg (by decide : ¬ (([⟨"N zɩ̀ nà zaabā.", "corpus", 1,
        .ofMatch ⟨"Je vais au marché.", "N zɩ̀ nà zaabā.", 1, "manual_v1"⟩⟩,
      ⟨"<UNK:Je> <UNK:vais> <UNK:au> <UNK:marché>", "dictionary", 1 / 10,
        .ofComposition ⟨"<UNK:Je> <UNK:vais> <UNK:au> <UNK:marché>", 1 / 10, 4⟩⟩] :
      List Candidate).length = 0))]
    rw [if_pos (by decide : (⟨"N zɩ̀ nà zaabā.", "corpus", 1,
      .ofMatch ⟨"Je vais au marché.", "N zɩ̀ nà zaabā.", 1, "manual_v1"⟩⟩ :
        Candidate).source = "corpus")]
    rw [hfix]
    decide
  refine ⟨hms, hfinal, by rw [hwin], hexp, ?_⟩
  have hsrc : decisionC4.src_text = "Je vais au marché." := rfl
  have hcount : countSub "<UNK:".data ("N zɩ̀ nà zaabā." : String).data = 0 := by decide
  have hlen1 : ("Je vais au marché." : String).length = 18 := by decide
  have hlen2 : ("N zɩ̀ nà zaabā." : String).length = 15 := by decide
  simp only [calculateCompositeScore, hcand, hfinal, hsrc, firstConfidence, hcount, hlen1, hlen2,
    List.length_cons, List.length_nil]
  norm_num [min_def, max_def]

/-- C8 counterexample: a record with the explicit parsable score `0` does
NOT keep the parsed value: `parseFloat` yields `0`, which is falsy, so the
`|| 0.5` default replaces it and the stored score is `0.5`, not `0`. -/
theorem score_zero_default_cex :
    jsParseFloat "0" = some 0 ∧
    loadDictionary ("chien" ++ "\t" ++ "baaga" ++ "\t" ++ "NOUN" ++ "\t" ++ "0") =
      [("chien", [⟨"baaga", "NOUN", 1 / 2⟩])] ∧
    ((1 : ℚ) / 2) ≠ 0 := by
  have hp0 : jsParseFloat "0" =
      some ((1 : ℚ) * (((0 : Nat) : ℚ) + ((0 : Nat) : ℚ) / (10 : ℚ) ^ (0 : Nat))) := rfl
  have hp : jsParseFloat "0" = some 0 := by
    rw [hp0]
    norm_num
  have hsc : jsScoreDefault (some "0") = 1 / 2 := by
    simp only [jsScoreDefault]
    rw [hp]
    show (if (0 : ℚ) = 0 then (1 : ℚ) / 2 else (0 : ℚ)) = 1 / 2
    rw [if_pos rfl]
  have h1 : loadDictionary ("chien" ++ "\t" ++ "baaga" ++ "\t" ++ "NOUN" ++ "\t" ++ "0") =
      [("chien", [⟨"baaga", "NOUN", jsScoreDefault (some "0")⟩])] := rfl
  exact ⟨hp, by rw [h1, hsc], by norm_num⟩

/-- C8 (amended): a tab-delimited record with nonempty source and target
stores the record's `pos`, defaulting to `"UNK"` when the field is absent or
empty (both falsy), and stores the record's score parsed as a float, except
that an absent, unparsable, OR zero-parsing score field all default to `0.5`
— the `|| 0.5` fallback also replaces an explicit zero.  Stated for a record
with all four columns, for a record with both trailing columns omitted
(`pos` and `score` absent: defaults `"UNK"` and `0.5`), and for a record
with only the score column omitted (`score` absent: default `0.5`). -/
theorem dict_record_defaults :
    (∀ line fr mos pos score : String, splitOnChar '\t' line = [fr, mos, pos, score] →
      fr ≠ "" → mos ≠ "" →
      processDictLine [] line =
        [(jsToLower fr, [⟨mos, (if pos = "" then "UNK" else pos),
          (match jsParseFloat score with
            | none => 1 / 2
            | some q => if q = 0 then 1 / 2 else q)⟩])]) ∧
    (∀ line fr mos : String, splitOnChar '\t' line = [fr, mos] →
      fr ≠ "" → mos ≠ "" →
      processDictLine [] line = [(jsToLower fr, [⟨mos, "UNK", 1 / 2⟩])]) ∧
    (∀ line fr mos pos : String, splitOnChar '\t' line = [fr, mos, pos] →
      fr ≠ "" → mos ≠ "" →
      processDictLine [] line =
        [(jsToLower fr, [⟨mos, (if pos = "" then "UNK" else pos), 1 / 2⟩])]) := by
  refine ⟨?_, ?_, ?_⟩
  · intro line fr mos pos score hsplit hfr hmos
    simp only [processDictLine, hsplit, List.get?_cons_zero, List.get?_cons_succ,
      Option.getD_some]
    rw [if_pos ⟨hfr, hmos⟩]
    simp only [insertAppend, List.any_nil, List.nil_append, jsPosDefault, jsScoreDefault]
    rw [if_neg Bool.false_ne_true]
  · intro line fr mos hsplit hfr hmos
    simp only [processDictLine, hsplit, List.get?_cons_zero, List.get?_cons_succ,
      List.get?_nil, Option.getD_some]
    rw [if_pos ⟨hfr, hmos⟩]
    simp only [insertAppend, List.any_nil, List.nil_append, jsPosDefault, jsScoreDefault]
    rw [if_neg Bool.false_ne_true]
  · intro line fr mos pos hsplit hfr hmos
    simp only [processDictLine, hsplit, List.get?_cons_zero, List.get?_cons_succ,
      List.get?_nil, Option.getD_some]
    rw [if_pos ⟨hfr, hmos⟩]
    simp only [insertAppend, List.any_nil, List.nil_append, jsPosDefault, jsScoreDefault]
    rw [if_neg Bool.false_ne_true]

/-- Witness for `dict_record_defaults`: the four-column record
`chien TAB baaga TAB NOUN TAB 0.8` stores pos `NOUN` and the parsed score,
the two-column record `chien TAB baaga` stores the absent-field defaults
`UNK` and `0.5`, and the three-column record `chien TAB baaga TAB NOUN`
stores `NOUN` and the absent-score default `0.5`. -/
theorem dict_record_defaults_witness :
    processDictLine [] ("chien" ++ "\t" ++ "baaga" ++ "\t" ++ "NOUN" ++ "\t" ++ "0.8") =
      [(jsToLower "chien", [⟨"baaga", (if "NOUN" = "" then "UNK" else "NOUN"),
        (match jsParseFloat "0.8" with
          | none => 1 / 2
          | some q => if q = 0 then 1 / 2 else q)⟩])] ∧
    processDictLine [] ("chien" ++ "\t" ++ "baaga") =
      [(jsToLower "chien", [⟨"baaga", "UNK", 1 / 2⟩])] ∧
    processDictLine [] ("chien" ++ "\t" ++ "baaga" ++ "\t" ++ "NOUN") =
      [(jsToLower "chien", [⟨"baaga", (if "NOUN" = "" then "UNK" else "NOUN"), 1 / 2⟩])] :=
  ⟨dict_record_defaults.1 ("chien" ++ "\t" ++ "baaga" ++ "\t" ++ "NOUN" ++ "\t" ++ "0.8")
      "chien" "baaga" "NOUN" "0.8" (by decide) (by decide) (by decide),
    dict_record_defaults.2.1 ("chien" ++ "\t" ++ "baaga")
      "chien" "baaga" (by decide) (by decide) (by decide),
    dict_record_defaults.2.2 ("chien" ++ "\t" ++ "baaga" ++ "\t" ++ "NOUN")
      "chien" "baaga" "NOUN" (by decide) (by decide) (by decide)⟩
